import Mathlib

/-!
Shallow embedding of the `search_engine` repository (Rust):

* `src/crawly.rs` — the `Crawler`: configuration, robots.txt caching and
  crawl-delay parsing, the recursive `crawl` visit, `start`.
* `src/server.rs` — the gRPC `Searcher` service handlers.
* `src/indexer.rs` — `IndexerService::visit` (voyager-based crawl glue).

External collaborators (reqwest, infer, mime, scraper, robotstxt, the url
crate's parsing/joining, UTF-8 decoding) are modelled as oracle functions in a
`World` record; the control flow around them is translated line by line from
the source.  The async/concurrent execution (`join_all` over child visits,
`RwLock`-protected state) is modelled as the sequential interleaving in
program order: child futures are run left to right, threading the shared
state (`robots_cache`, `visited`) and discarding their error results exactly
as `let _ = join_all(...)` does.  Observable actions (HTTP GETs, robots.txt
fetches, sleeps, writer writes) are recorded in an event trace.
-/

/-! ### Rust string primitives used by the crawl-delay parser

`crawly.rs` parses a fetched robots.txt body with
`lines() / contains("Crawl-delay") / split(':').last() / trim() / parse::<u64>()`.
These std functions are reimplemented here over `List Char` so that they
compute by structural recursion. -/

/-- One step of byte-wise list prefix comparison (for substring search). -/
def isPrefixChars : List Char → List Char → Bool
  | [], _ => true
  | _ :: _, [] => false
  | p :: ps, c :: cs => p == c && isPrefixChars ps cs

/-- `str::contains` for a fixed pattern: does `pat` occur in `s`? -/
def containsSeq (pat : List Char) : List Char → Bool
  | [] => isPrefixChars pat []
  | c :: cs => isPrefixChars pat (c :: cs) || containsSeq pat cs

/-- `str::split(sep)`: split on every occurrence of the character `sep`.
The result is never empty, matching Rust's `Split` iterator. -/
def splitOnCh (sep : Char) : List Char → List (List Char)
  | [] => [[]]
  | c :: cs =>
    let r := splitOnCh sep cs
    if c == sep then [] :: r
    else
      match r with
      | h :: t => (c :: h) :: t
      | [] => [[c]]

/-- `str::lines()`: split on `'\n'`, drop a final empty segment (a trailing
newline does not produce an extra line), and strip one trailing `'\r'` from
each line. -/
def rustLines (s : List Char) : List (List Char) :=
  let parts := splitOnCh '\n' s
  let parts := if parts.getLast? = some [] then parts.dropLast else parts
  parts.map fun l => if l.getLast? = some '\r' then l.dropLast else l

/-- ASCII whitespace test for `str::trim` (the robots bodies exercised here
contain only ASCII whitespace). -/
def isWsChar (c : Char) : Bool :=
  c == ' ' || c == '\t' || c == '\r' || c == '\n'

/-- `str::trim`: remove leading and trailing whitespace. -/
def trimChars (l : List Char) : List Char :=
  ((l.dropWhile isWsChar).reverse.dropWhile isWsChar).reverse

/-- Accumulator loop for `parse::<u64>`: all remaining characters must be
decimal digits. -/
def parseDigitsAux : List Char → Nat → Option Nat
  | [], acc => some acc
  | c :: cs, acc =>
    if c.isDigit then parseDigitsAux cs (acc * 10 + (c.toNat - 48)) else none

/-- `str::parse::<u64>()`: an optional leading `'+'`, then one or more decimal
digits, value below `2 ^ 64` (Rust errors on overflow). -/
def parseU64 (s : List Char) : Option Nat :=
  let t := match s with
    | '+' :: rest => rest
    | _ => s
  match t with
  | [] => none
  | _ =>
    match parseDigitsAux t 0 with
    | some n => if n < 2 ^ 64 then some n else none
    | none => none

/-! ### Crawler data model (`src/crawly.rs`) -/

/-- Constant `RATE_LIMIT_WAIT_SECONDS` from `crawly.rs` (line 25). -/
def RATE_LIMIT_WAIT_SECONDS : Nat := 1

/-- The per-line candidates produced by the crawl-delay scan in
`Crawler::crawl` (lines 206-215): a line contributes iff it contains the
substring `"Crawl-delay"` and the text after its last `':'`, trimmed, parses
as `u64`. -/
def delayCandidates (content : String) : List Nat :=
  (rustLines content.data).filterMap fun line =>
    if containsSeq "Crawl-delay".data line then
      parseU64 (trimChars ((splitOnCh ':' line).getLastD []))
    else
      none

/-- `delay_seconds` computed from a fetched robots.txt body
(`crawly.rs` lines 206-216): the first candidate, defaulting to the constant
`RATE_LIMIT_WAIT_SECONDS` (`unwrap_or`). -/
def crawlDelayOfRobots (content : String) : Nat :=
  (delayCandidates content).headD RATE_LIMIT_WAIT_SECONDS

/-- `struct RobotsCache` (`crawly.rs` lines 28-32). -/
structure RobotsCache where
  content : String
  crawl_delay : Option Nat
deriving DecidableEq

/-- `struct CrawlerConfig` with its `Default` impl (`crawly.rs` lines 36-59).
`allowed_mimes` holds the MIME types in their parsed (canonical string)
form. -/
structure CrawlerConfig where
  user_agent : String := "CrawlyRustCrawler"
  max_depth : Nat := 5
  max_pages : Nat := 15
  max_concurrent_requests : Nat := 1000
  rate_limit_wait_seconds : Nat := RATE_LIMIT_WAIT_SECONDS
  robots : Bool := true
  allowed_mimes : List String := []

/-- A parsed URL as exposed by the `url` crate operations the crawler uses:
its scheme, `host()` (`none` for opaque schemes), whether that host is a
domain name (`url.domain()` is `Some` only then; it is `None` for IP-address
hosts), and its serialization `as_str()/to_string()`. -/
structure Url where
  scheme : String
  host : Option String
  hostIsDomain : Bool
  full : String
deriving DecidableEq

/-- `url.domain().unwrap_or_default()` (`crawly.rs` line 179): the host
string when the host is a domain name, `""` otherwise. -/
def Url.domainStr (u : Url) : String :=
  match u.host, u.hostIsDomain with
  | some h, true => h
  | _, _ => ""

/-- The parts of a `reqwest::Response` the crawler inspects: the
`cf-mitigated: challenge` header test and the body bytes (`none` models a
failure of `response.bytes()`). -/
structure HttpResponse where
  cfMitigated : Bool
  bodyBytes : Option (List Nat)
deriving DecidableEq

/-- Oracle for the external collaborators: URL parsing/joining (`url` crate),
HTTP (`reqwest`), MIME sniffing (`infer`), MIME parsing (`mime`), UTF-8
decoding (`String::from_utf8`), link extraction (`scraper`, selector `"a"`,
which never fails to parse), and the robots matcher
(`robotstxt::DefaultMatcher::one_agent_allowed_by_robots`, taking the robots
body, the user agent and the URL). `robotsFetch` returns `none` when
`send()` fails and `some none` when `send()` succeeds but `text()` fails. -/
structure World where
  parseUrl : String → Option Url
  fetch : String → Option HttpResponse
  robotsFetch : String → Option (Option String)
  sniff : List Nat → Option String
  mimeParse : String → Option String
  utf8Decode : List Nat → Option String
  extractLinks : String → List String
  robotsAllowed : String → String → String → Bool
  joinUrl : Url → String → Option Url

/-- Observable actions of one crawl, in program order.  `robotsGet d c`
records an HTTP GET of `d`'s robots.txt (`c` is true when the body was
obtained and cached); `write` records a `writer.write(text, url, origin,
depth)` call (the source passes `url.to_string()`, i.e. `url.full`, and
`depth as u32`). -/
inductive Event where
  | robotsGet (domain : String) (cached : Bool)
  | sleep (seconds : Nat)
  | get (url : Url)
  | write (text : String) (url : Url) (origin : String) (depth : Nat)
deriving DecidableEq

/-- The error exits of `Crawler::crawl` reachable through `?`:
`Host not found.` (line 186), `response.text().await?` (line 202), the page
`send()` (line 252), `bytes()` (line 262), and `String::from_utf8` (line
284). -/
inductive CrawlErr where
  | hostNotFound
  | robotsTextErr
  | fetchErr
  | bytesErr
  | utf8Err
deriving DecidableEq

/-- The crawl-shared mutable state: the `robots_cache : IndexMap<String,
RobotsCache>` (as an association list, fresh domains at the head) and the
`visited : HashSet<Url>` (as a list of distinct URLs). -/
structure CrawlState where
  robotsCache : List (String × RobotsCache)
  visited : List Url
deriving DecidableEq

/-- Outcome of the robots phase of a visit: proceed to the page GET, stop
with success (robots disallow), or fail with an error. -/
inductive StepGo where
  | go
  | stop
  | fail (e : CrawlErr)
deriving DecidableEq

/-- The recursion base-case test of `Crawler::crawl` (lines 167-170):
`depth > max_depth || visited.len() > max_pages || visited.contains(&url)`. -/
def stopGuard (cfg : CrawlerConfig) (url : Url) (depth : Nat) (s : CrawlState) : Bool :=
  decide (cfg.max_depth < depth) ||
  decide (cfg.max_pages < s.visited.length) ||
  s.visited.contains url

/-- The robots handling of one visit (`crawly.rs` lines 181-250): when
`config.robots` is set, resolve the host (error if absent), consult the cache
for `url.domain()`, otherwise GET `scheme://host/robots.txt`; a fetched body
is parsed for its crawl delay and cached; with a robots body in hand the
visit sleeps for the (cached or parsed) delay and asks the matcher, stopping
on disallow; a failed robots fetch yields no policy — no sleep, proceed.
When `config.robots` is unset the visit sleeps `rate_limit_wait_seconds`
unconditionally. -/
def robotsStep (cfg : CrawlerConfig) (w : World) (url : Url) (s : CrawlState) :
    CrawlState × List Event × StepGo :=
  if cfg.robots then
    match url.host with
    | none => (s, [], .fail .hostNotFound)
    | some h =>
      let robotsUrl := url.scheme ++ "://" ++ h ++ "/robots.txt"
      let domain := url.domainStr
      match s.robotsCache.lookup domain with
      | some info =>
        let delay := info.crawl_delay.getD RATE_LIMIT_WAIT_SECONDS
        (s, [Event.sleep delay],
          if w.robotsAllowed info.content cfg.user_agent url.full then .go else .stop)
      | none =>
        match w.robotsFetch robotsUrl with
        | some (some content) =>
          let delay := crawlDelayOfRobots content
          let s1 : CrawlState :=
            { s with robotsCache := (domain, ⟨content, some delay⟩) :: s.robotsCache }
          (s1, [Event.robotsGet domain true, Event.sleep delay],
            if w.robotsAllowed content cfg.user_agent url.full then .go else .stop)
        | some none => (s, [Event.robotsGet domain false], .fail .robotsTextErr)
        | none => (s, [Event.robotsGet domain false], .go)
  else
    (s, [Event.sleep cfg.rate_limit_wait_seconds], .go)

/-- The MIME test of `crawly.rs` lines 265-273 (the closure applied to
`infer::get(page)`, with `unwrap_or(true)` on a failed sniff): true means the
skip branch fires. -/
def mimeSkip (w : World) (cfg : CrawlerConfig) (page : List Nat) : Bool :=
  match w.sniff page with
  | some t =>
    match w.mimeParse t with
    | some m => cfg.allowed_mimes.contains m
    | none => true
  | none => true

/-- The same-domain child filter of `crawly.rs` lines 304-313: resolve each
extracted link against the page URL, keep it only when its
`domain().unwrap_or_default()` equals the page's `domain`. -/
def childLinks (w : World) (url : Url) (domain : String) (content : String) : List Url :=
  (w.extractLinks content).filterMap fun link =>
    match w.joinUrl url link with
    | some u2 => if u2.domainStr == domain then some u2 else none
    | none => none

/-- Sequentialisation of `join_all` over the recursive child visits
(`crawly.rs` lines 293-315): run each visit in order, threading the shared
state, concatenating traces, and discarding each child's error result
(`let _ = join_all(...)`). -/
def foldVisits (f : Url → CrawlState → CrawlState × List Event × Except CrawlErr Unit) :
    List Url → CrawlState → CrawlState × List Event
  | [], s => (s, [])
  | u :: us, s =>
    let r := f u s
    let rest := foldVisits f us r.1
    (rest.1, r.2.1 ++ rest.2)

/-- `Crawler::crawl` (`crawly.rs` lines 156-320), fuel-indexed.  The fuel only
bounds the recursion depth; `start` supplies `max_depth + 2`, and since every
recursive call increases `depth` by one while the guard stops any visit with
`depth > max_depth`, the zero-fuel case (which returns like the guard) is
reached only at depths the guard would short-circuit anyway. -/
def crawl (cfg : CrawlerConfig) (w : World) :
    Nat → String → Url → Nat → CrawlState →
    CrawlState × List Event × Except CrawlErr Unit
  | 0, _, _, _, s => (s, [], .ok ())
  | fuel + 1, origin, url, depth, s =>
    if stopGuard cfg url depth s then
      (s, [], .ok ())
    else
      match robotsStep cfg w url s with
      | (s1, ev1, .fail e) => (s1, ev1, .error e)
      | (s1, ev1, .stop) => (s1, ev1, .ok ())
      | (s1, ev1, .go) =>
        let ev2 := ev1 ++ [Event.get url]
        match w.fetch url.full with
        | none => (s1, ev2, .error .fetchErr)
        | some resp =>
          if resp.cfMitigated then
            (s1, ev2, .ok ())
          else
            match resp.bodyBytes with
            | none => (s1, ev2, .error .bytesErr)
            | some page =>
              if !cfg.allowed_mimes.isEmpty && mimeSkip w cfg page then
                ({ s1 with visited := url :: s1.visited }, ev2, .ok ())
              else
                match w.utf8Decode page with
                | none => (s1, ev2, .error .utf8Err)
                | some content =>
                  let ev3 := ev2 ++ [Event.write content url origin (depth % 2 ^ 32)]
                  let s2 : CrawlState := { s1 with visited := url :: s1.visited }
                  let rest := foldVisits
                    (fun u2 t => crawl cfg w fuel origin u2 (depth + 1) t)
                    (childLinks w url url.domainStr content) s2
                  (rest.1, ev3 ++ rest.2, .ok ())

/-- The error result of `Crawler::start` (`crawly.rs` lines 338-348):
`Url::parse(url)?` fails with the parse error (InvalidSeed), and the `?` on
the root `crawl` call re-raises any error of the root visit. -/
inductive StartErr where
  | invalidSeed
  | rootErr (e : CrawlErr)
deriving DecidableEq

/-- `Crawler::start` (`crawly.rs` lines 338-348): parse the seed, then crawl
it at depth 0 with a fresh cache and visited set, `origin_url` being the
seed's serialization.  The state and trace are the observations of the run;
the `Except` component is the function's result. -/
def start (cfg : CrawlerConfig) (w : World) (seed : String) :
    CrawlState × List Event × Except StartErr Unit :=
  match w.parseUrl seed with
  | none => (⟨[], []⟩, [], .error .invalidSeed)
  | some root =>
    let r := crawl cfg w (cfg.max_depth + 1 + 1) root.full root 0 ⟨[], []⟩
    (r.1, r.2.1, r.2.2.mapError .rootErr)

/-! ### RPC facade (`src/server.rs`) and search service types -/

/-- `ResponseStatus` from the generated wire types (used by `server.rs` and
`client.rs`). -/
inductive ResponseStatus where
  | ok
  | error
deriving DecidableEq

/-- `SearchResult` wire message: `{relevant_url, origin_url, depth}`. -/
structure SearchResult where
  relevant_url : String
  origin_url : String
  depth : Nat
deriving DecidableEq

/-- `SearchResponse` wire message. -/
structure SearchResponse where
  status : ResponseStatus
  message : Option String
  results : List SearchResult
deriving DecidableEq

/-- `IndexResponse` wire message. -/
structure IndexResponse where
  status : ResponseStatus
  message : Option String
deriving DecidableEq

/-- The transport-level gRPC statuses produced by `server.rs`
(`Status::aborted(message)`). -/
inductive GrpcStatus where
  | aborted (message : String)
deriving DecidableEq

/-- Result of an RPC handler as seen by the client: either a structured
response message, or a transport-level gRPC status failure
(`Result<Response<T>, Status>` in tonic). -/
inductive RpcOutcome (α : Type) where
  | reply (response : α)
  | transportErr (status : GrpcStatus)
deriving DecidableEq

/-- `SearchService::search` (`server.rs` lines 40-50) as a function of the
result of `self.indexer.read(query)`: a successful read yields an OK-status
response with no message; a read error yields `Err(Status::aborted(msg))`. -/
def searchHandler (readResult : Except String (List SearchResult)) :
    RpcOutcome SearchResponse :=
  match readResult with
  | .ok results => .reply { status := .ok, message := none, results := results }
  | .error message => .transportErr (.aborted message)

/-- `SearchService::index` (`server.rs` lines 27-38) as a function of the
result of `self.indexer.visit(origin, k)`: success yields an OK-status
response with no message; an error yields `Err(Status::aborted(msg))`. -/
def indexHandler (visitResult : Except String String) : RpcOutcome IndexResponse :=
  match visitResult with
  | .ok _ => .reply { status := .ok, message := none }
  | .error e => .transportErr (.aborted e)

/-- Does the outcome carry a structured ERROR-status search response with a
populated, non-empty message (what the spec promises for rejected
queries)? -/
def isErrorReplyWithMessage : RpcOutcome SearchResponse → Bool
  | .reply r => r.status == .error && (r.message.getD "") != ""
  | .transportErr _ => false

/-! ### Indexer service (`src/indexer.rs`) -/

/-- The voyager `CrawlerConfig` built by `IndexerService::visit`
(`indexer.rs` lines 73-76), recorded as the builder calls the code makes:
`disallow_domains(["facebook.com", "google.com"])`, `max_depth(max_depth)`,
`max_concurrent_requests(1_000)`. -/
structure VoyagerConfigCalls where
  disallowed_domains : List String
  max_depth : Nat
  max_concurrent_requests : Nat
deriving DecidableEq

/-- The configuration `IndexerService::visit` builds for an `Index(origin,
k)` request. -/
def indexerVisitConfig (k : Nat) : VoyagerConfigCalls :=
  { disallowed_domains := ["facebook.com", "google.com"]
    max_depth := k
    max_concurrent_requests := 1000 }

/-- One `SearchEngine::write` call: `(text, url, origin_url, depth)`. -/
structure PageWrite where
  text : String
  url : String
  origin_url : String
  depth : Nat
deriving DecidableEq

/-- The writes performed by the collector loop of `IndexerService::visit`
(`indexer.rs` lines 79-83) given the stream of scraper outputs
`(depth, url, text)`: each `Ok` output is written with the request's
`origin_url` and `depth as u32`; `Err` outputs are dropped. -/
def indexerVisitWrites (origin : String)
    (outputs : List (Except String (Nat × String × String))) : List PageWrite :=
  outputs.filterMap fun o =>
    match o with
    | .ok (depth, url, text) => some ⟨text, url, origin, depth % 2 ^ 32⟩
    | .error _ => none

/-- The return value of `IndexerService::visit` (`indexer.rs` line 84): the
loop always falls through to `Ok(format!(...))`. -/
def indexerVisitResult (origin : String) (k : Nat) : Except String String :=
  .ok ("Completed crawl for " ++ origin ++ " at max depth " ++ toString k)

/-! ### Concrete worlds used to evaluate the embedding

Each world fixes the oracle responses for a small site, mirroring the
stub-server scenarios of the specification's testable-properties section. -/

/-- Seed URL `http://a.com/` (domain-name host). -/
def urlA : Url := ⟨"http", some "a.com", true, "http://a.com/"⟩

/-- Same-domain child `http://a.com/b`. -/
def urlB : Url := ⟨"http", some "a.com", true, "http://a.com/b"⟩

/-- Seed URL with an IPv4 host: `url.domain()` is `None` for it. -/
def urlIp1 : Url := ⟨"http", some "127.0.0.1", false, "http://127.0.0.1/"⟩

/-- A URL on a different IPv4 host; its `domain()` is also `None`. -/
def urlIp2 : Url := ⟨"http", some "192.168.0.1", false, "http://192.168.0.1/x"⟩

/-- Leading bytes of a PNG body. -/
def pngBytes : List Nat := [137, 80, 78, 71]

/-- Body bytes of the seed page in the link worlds. -/
def bytesA : List Nat := [10]

/-- Body bytes of the child page in the link worlds. -/
def bytesB : List Nat := [11]

/-- A configuration with the MIME filter `[text/html]` and robots handling
off. -/
def cfgMime : CrawlerConfig := { robots := false, allowed_mimes := ["text/html"] }

/-- A default-valued configuration with robots handling off. -/
def cfgPlain : CrawlerConfig := { robots := false }

/-- The all-default configuration (robots handling on). -/
def cfgDef : CrawlerConfig := {}

/-- A configuration with `rate_limit_wait_seconds` raised to 5 (robots on). -/
def cfgWait5 : CrawlerConfig := { rate_limit_wait_seconds := 5 }

/-- World: `http://a.com/` serves a page whose bytes sniff as `image/png`;
no links. -/
def wPng : World where
  parseUrl s := if s = "http://a.com/" then some urlA else none
  fetch s := if s = "http://a.com/" then some ⟨false, some pngBytes⟩ else none
  robotsFetch _ := none
  sniff b := if b = pngBytes then some "image/png" else none
  mimeParse t := some t
  utf8Decode b := if b = pngBytes then some "PNGBODY" else none
  extractLinks _ := []
  robotsAllowed _ _ _ := true
  joinUrl _ _ := none

/-- World: like `wPng` but the body sniffs as `text/html`. -/
def wHtml : World where
  parseUrl s := if s = "http://a.com/" then some urlA else none
  fetch s := if s = "http://a.com/" then some ⟨false, some pngBytes⟩ else none
  robotsFetch _ := none
  sniff b := if b = pngBytes then some "text/html" else none
  mimeParse t := some t
  utf8Decode b := if b = pngBytes then some "HTMLBODY" else none
  extractLinks _ := []
  robotsAllowed _ _ _ := true
  joinUrl _ _ := none

/-- World: the seed parses but every page fetch fails (`send()` errors). -/
def wFetchFail : World where
  parseUrl s := if s = "http://a.com/" then some urlA else none
  fetch _ := none
  robotsFetch _ := none
  sniff _ := none
  mimeParse _ := none
  utf8Decode _ := none
  extractLinks _ := []
  robotsAllowed _ _ _ := true
  joinUrl _ _ := none

/-- World: seed on an IPv4 host whose page links to a URL on a different
IPv4 host; both hosts have empty `domain()`. -/
def wIp : World where
  parseUrl s := if s = "http://127.0.0.1/" then some urlIp1 else none
  fetch s :=
    if s = "http://127.0.0.1/" then some ⟨false, some bytesA⟩
    else if s = "http://192.168.0.1/x" then some ⟨false, some bytesB⟩
    else none
  robotsFetch _ := none
  sniff _ := none
  mimeParse _ := none
  utf8Decode b :=
    if b = bytesA then some "IPROOT" else if b = bytesB then some "IPCHILD" else none
  extractLinks c := if c = "IPROOT" then ["http://192.168.0.1/x"] else []
  robotsAllowed _ _ _ := true
  joinUrl _ l := if l = "http://192.168.0.1/x" then some urlIp2 else none

/-- World: robots handling on but every robots.txt fetch fails; the seed
page links to same-domain `/b`. -/
def wRobFail : World where
  parseUrl s := if s = "http://a.com/" then some urlA else none
  fetch s :=
    if s = "http://a.com/" then some ⟨false, some bytesA⟩
    else if s = "http://a.com/b" then some ⟨false, some bytesB⟩
    else none
  robotsFetch _ := none
  sniff _ := none
  mimeParse _ := none
  utf8Decode b :=
    if b = bytesA then some "LINKB" else if b = bytesB then some "PAGEB" else none
  extractLinks c := if c = "LINKB" then ["/b"] else []
  robotsAllowed _ _ _ := true
  joinUrl _ l := if l = "/b" then some urlB else none

/-- World: like `wRobFail` but the robots.txt fetch succeeds with a
`Crawl-delay: 2` policy. -/
def wRobOk : World where
  parseUrl s := if s = "http://a.com/" then some urlA else none
  fetch s :=
    if s = "http://a.com/" then some ⟨false, some bytesA⟩
    else if s = "http://a.com/b" then some ⟨false, some bytesB⟩
    else none
  robotsFetch s :=
    if s = "http://a.com/robots.txt" then some (some "Crawl-delay: 2\n") else none
  sniff _ := none
  mimeParse _ := none
  utf8Decode b :=
    if b = bytesA then some "LINKB" else if b = bytesB then some "PAGEB" else none
  extractLinks c := if c = "LINKB" then ["/b"] else []
  robotsAllowed _ _ _ := true
  joinUrl _ l := if l = "/b" then some urlB else none

/-- World: the robots.txt body is `"Crawl-delay stuff: 7\n"` — it contains
the substring `Crawl-delay` but not `Crawl-delay:`; the seed page has no
links. -/
def wRobOdd : World where
  parseUrl s := if s = "http://a.com/" then some urlA else none
  fetch s := if s = "http://a.com/" then some ⟨false, some bytesA⟩ else none
  robotsFetch s :=
    if s = "http://a.com/robots.txt" then some (some "Crawl-delay stuff: 7\n")
    else none
  sniff _ := none
  mimeParse _ := none
  utf8Decode b := if b = bytesA then some "NOLINKS" else none
  extractLinks _ := []
  robotsAllowed _ _ _ := true
  joinUrl _ _ := none

/-- World: the robots.txt body is empty (no `Crawl-delay` directive); the
seed page has no links. -/
def wRobEmpty : World where
  parseUrl s := if s = "http://a.com/" then some urlA else none
  fetch s := if s = "http://a.com/" then some ⟨false, some bytesA⟩ else none
  robotsFetch s := if s = "http://a.com/robots.txt" then some (some "") else none
  sniff _ := none
  mimeParse _ := none
  utf8Decode b := if b = bytesA then some "NOLINKS" else none
  extractLinks _ := []
  robotsAllowed _ _ _ := true
  joinUrl _ _ := none

/-! ### Helper definitions for stating properties of traces -/

/-- Decidable equality for `Except` results (used to evaluate run results on
concrete worlds). -/
instance {ε α : Type} [DecidableEq ε] [DecidableEq α] : DecidableEq (Except ε α) :=
  fun x y =>
    match x, y with
    | .ok a, .ok b =>
      if h : a = b then .isTrue (by rw [h])
      else .isFalse (fun hh => h (Except.ok.inj hh))
    | .error a, .error b =>
      if h : a = b then .isTrue (by rw [h])
      else .isFalse (fun hh => h (Except.error.inj hh))
    | .ok _, .error _ => .isFalse (fun hh => Except.noConfusion hh)
    | .error _, .ok _ => .isFalse (fun hh => Except.noConfusion hh)

/-- Is the event a writer write? -/
def Event.isWrite : Event → Bool
  | .write _ _ _ _ => true
  | _ => false

/-- Is the event a sleep? -/
def Event.isSleep : Event → Bool
  | .sleep _ => true
  | _ => false

/-- Number of robots.txt GETs issued for domain `d` in a trace (successful or
not). -/
def robotsGetCount (d : String) (ev : List Event) : Nat :=
  (ev.filter fun e =>
    match e with
    | .robotsGet d2 _ => d2 == d
    | _ => false).length

/-- Number of successful (body obtained and cached) robots.txt GETs for
domain `d` in a trace. -/
def robotsOkCount (d : String) (ev : List Event) : Nat :=
  (ev.filter fun e =>
    match e with
    | .robotsGet d2 c => c && d2 == d
    | _ => false).length

/-- Does the robots cache hold an entry for domain `d`? -/
def cacheHas (d : String) (s : CrawlState) : Bool :=
  (s.robotsCache.lookup d).isSome

/-! ### General lemmas about the crawler embedding -/

theorem stopGuard_false_depth {cfg : CrawlerConfig} {url : Url} {depth : Nat}
    {s : CrawlState} (h : stopGuard cfg url depth s = false) :
    depth ≤ cfg.max_depth := by
  simp only [stopGuard, Bool.or_eq_false_iff, decide_eq_false_iff_not] at h
  exact Nat.le_of_not_lt h.1.1

theorem host_of_domain {u : Url} (h : u.domainStr ≠ "") : u.host = some u.domainStr := by
  unfold Url.domainStr at *
  rcases hh : u.host with _ | v <;> rcases hb : u.hostIsDomain <;>
    simp [hh, hb] at h ⊢

theorem childLinks_domain {w : World} {url : Url} {domain content : String} {u2 : Url}
    (h : u2 ∈ childLinks w url domain content) : u2.domainStr = domain := by
  simp only [childLinks, List.mem_filterMap] at h
  obtain ⟨link, _, hlk⟩ := h
  rcases hj : w.joinUrl url link with _ | x <;> simp only [hj] at hlk
  · simp at hlk
  · by_cases hd : (x.domainStr == domain) = true
    · rw [if_pos hd] at hlk
      cases hlk
      exact eq_of_beq hd
    · rw [if_neg hd] at hlk
      simp at hlk

theorem robotsStep_no_write (cfg : CrawlerConfig) (w : World) (url : Url) (s : CrawlState)
    (t : String) (u : Url) (o : String) (d : Nat) :
    Event.write t u o d ∉ (robotsStep cfg w url s).2.1 := by
  intro hmem
  simp only [robotsStep] at hmem
  split at hmem
  · split at hmem
    · simp at hmem
    · split at hmem
      · simp at hmem
      · split at hmem <;> simp at hmem
  · simp at hmem

theorem foldVisits_mem
    {f : Url → CrawlState → CrawlState × List Event × Except CrawlErr Unit}
    {P : Event → Prop} :
    ∀ us s, (∀ u, u ∈ us → ∀ s0 e, e ∈ (f u s0).2.1 → P e) →
      ∀ e, e ∈ (foldVisits f us s).2 → P e := by
  intro us
  induction us with
  | nil =>
    intro s _ e he
    simp [foldVisits] at he
  | cons u us ih =>
    intro s hf e he
    simp only [foldVisits] at he
    rcases List.mem_append.mp he with h | h
    · exact hf u (List.mem_cons_self u us) _ e h
    · exact ih _ (fun v hv => hf v (List.mem_cons_of_mem u hv)) e h

theorem crawl_write_le (cfg : CrawlerConfig) (w : World) :
    ∀ fuel origin url depth s t u o d,
      Event.write t u o d ∈ (crawl cfg w fuel origin url depth s).2.1 →
      d ≤ cfg.max_depth := by
  intro fuel
  induction fuel with
  | zero =>
    intro origin url depth s t u o d hmem
    simp [crawl] at hmem
  | succ f ih =>
    intro origin url depth s t u o d hmem
    simp only [crawl] at hmem
    split at hmem
    · simp at hmem
    · rename_i hg
      have hgf : stopGuard cfg url depth s = false := by
        revert hg; cases stopGuard cfg url depth s <;> simp
      have hdep := stopGuard_false_depth hgf
      have hnw : Event.write t u o d ∉ (robotsStep cfg w url s).2.1 :=
        robotsStep_no_write cfg w url s t u o d
      split at hmem
      · rename_i s1 ev1 e heq
        rw [heq] at hnw
        simp at hmem hnw
        exact absurd hmem hnw
      · rename_i s1 ev1 heq
        rw [heq] at hnw
        simp at hmem hnw
        exact absurd hmem hnw
      · rename_i s1 ev1 heq
        rw [heq] at hnw
        simp only at hnw
        split at hmem
        · simp at hmem hnw
          exact absurd hmem hnw
        · rename_i resp hfetch
          split at hmem
          · simp at hmem hnw
            exact absurd hmem hnw
          · split at hmem
            · simp at hmem hnw
              exact absurd hmem hnw
            · rename_i page hbytes
              split at hmem
              · simp at hmem hnw
                exact absurd hmem hnw
              · split at hmem
                · simp at hmem hnw
                  exact absurd hmem hnw
                · rename_i content hutf
                  rcases List.mem_append.mp hmem with h12 | hrest
                  · rcases List.mem_append.mp h12 with h1 | hw
                    · rcases List.mem_append.mp h1 with h0 | hgg
                      · exact absurd h0 hnw
                      · exact Event.noConfusion (List.mem_singleton.mp hgg)
                    · have hw2 := List.mem_singleton.mp hw
                      injection hw2 with h1 h2 h3 h4
                      rw [h4]
                      exact le_trans (Nat.mod_le _ _) hdep
                  · refine foldVisits_mem
                      (P := fun e => ∀ t2 u2 o2 d2,
                        e = Event.write t2 u2 o2 d2 → d2 ≤ cfg.max_depth)
                      _ _ ?_ _ hrest t u o d rfl
                    intro v _ s0 e he t2 u2 o2 d2 heq2
                    exact ih origin v (depth + 1) s0 t2 u2 o2 d2 (heq2 ▸ he)

theorem crawl_write_domain (cfg : CrawlerConfig) (w : World) :
    ∀ fuel origin url depth s t u o d,
      Event.write t u o d ∈ (crawl cfg w fuel origin url depth s).2.1 →
      u.domainStr = url.domainStr := by
  intro fuel
  induction fuel with
  | zero =>
    intro origin url depth s t u o d hmem
    simp [crawl] at hmem
  | succ f ih =>
    intro origin url depth s t u o d hmem
    simp only [crawl] at hmem
    split at hmem
    · simp at hmem
    · rename_i hg
      have hnw : Event.write t u o d ∉ (robotsStep cfg w url s).2.1 :=
        robotsStep_no_write cfg w url s t u o d
      split at hmem
      · rename_i s1 ev1 e heq
        rw [heq] at hnw
        simp at hmem hnw
        exact absurd hmem hnw
      · rename_i s1 ev1 heq
        rw [heq] at hnw
        simp at hmem hnw
        exact absurd hmem hnw
      · rename_i s1 ev1 heq
        rw [heq] at hnw
        split at hmem
        · simp at hmem hnw
          exact absurd hmem hnw
        · rename_i resp hfetch
          split at hmem
          · simp at hmem hnw
            exact absurd hmem hnw
          · split at hmem
            · simp at hmem hnw
              exact absurd hmem hnw
            · rename_i page hbytes
              split at hmem
              · simp at hmem hnw
                exact absurd hmem hnw
              · split at hmem
                · simp at hmem hnw
                  exact absurd hmem hnw
                · rename_i content hutf
                  rcases List.mem_append.mp hmem with h12 | hrest
                  · rcases List.mem_append.mp h12 with h1 | hw
                    · rcases List.mem_append.mp h1 with h0 | hgg
                      · exact absurd h0 hnw
                      · exact Event.noConfusion (List.mem_singleton.mp hgg)
                    · have hw2 := List.mem_singleton.mp hw
                      injection hw2 with h1 h2 h3 h4
                      rw [h2]
                  · refine foldVisits_mem
                      (P := fun e => ∀ t2 u2 o2 d2,
                        e = Event.write t2 u2 o2 d2 → u2.domainStr = url.domainStr)
                      _ _ ?_ _ hrest t u o d rfl
                    intro v hv s0 e he t2 u2 o2 d2 heq2
                    have h5 := ih origin v (depth + 1) s0 t2 u2 o2 d2 (heq2 ▸ he)
                    rw [h5, childLinks_domain hv]

theorem crawl_depth_gt (cfg : CrawlerConfig) (w : World) :
    ∀ fuel origin url k s,
      crawl cfg w fuel origin url (cfg.max_depth + 1 + k) s = (s, [], .ok ()) := by
  intro fuel origin url k s
  cases fuel with
  | zero => simp [crawl]
  | succ f =>
    have hg : stopGuard cfg url (cfg.max_depth + 1 + k) s = true := by
      have hlt : cfg.max_depth < cfg.max_depth + 1 + k := by omega
      simp [stopGuard, hlt]
    simp [crawl, hg]

theorem robotsOkCount_append (d : String) (a b : List Event) :
    robotsOkCount d (a ++ b) = robotsOkCount d a + robotsOkCount d b := by
  simp [robotsOkCount, List.filter_append]

/-- Sequential-composition invariant carrying the robots-once argument: over
the events `ev` of a crawl fragment taking the state from `s` to `s2`,
(1) a cached domain triggers no further successful robots fetch, (2) at most
one successful robots fetch of `d` occurs, (3) a successful fetch leaves `d`
cached, and (4) cache entries are never removed. -/
def RobotsInv (d : String) (s : CrawlState) (ev : List Event) (s2 : CrawlState) : Prop :=
  (cacheHas d s = true → robotsOkCount d ev = 0) ∧
  robotsOkCount d ev ≤ 1 ∧
  (1 ≤ robotsOkCount d ev → cacheHas d s2 = true) ∧
  (cacheHas d s = true → cacheHas d s2 = true)

theorem robotsInv_nil (d : String) (s : CrawlState) : RobotsInv d s [] s := by
  refine ⟨fun _ => rfl, ?_, ?_, fun h => h⟩
  · simp [robotsOkCount]
  · intro h
    simp [robotsOkCount] at h

theorem robotsInv_zero (d : String) (s s2 : CrawlState) (ev : List Event)
    (hc : robotsOkCount d ev = 0) (hcache : s.robotsCache = s2.robotsCache) :
    RobotsInv d s ev s2 := by
  refine ⟨fun _ => hc, by omega, fun h => by omega, fun h => ?_⟩
  unfold cacheHas at *
  rw [← hcache]
  exact h

theorem robotsInv_comp {d : String} {s s1 s2 : CrawlState} {t1 t2 : List Event}
    (I1 : RobotsInv d s t1 s1) (I2 : RobotsInv d s1 t2 s2) :
    RobotsInv d s (t1 ++ t2) s2 := by
  obtain ⟨a1, a2, a3, a4⟩ := I1
  obtain ⟨b1, b2, b3, b4⟩ := I2
  refine ⟨?_, ?_, ?_, fun hc => b4 (a4 hc)⟩
  · intro hc
    rw [robotsOkCount_append, a1 hc, b1 (a4 hc)]
  · rw [robotsOkCount_append]
    rcases Nat.eq_zero_or_pos (robotsOkCount d t1) with h0 | hp
    · rw [h0]
      simpa using b2
    · have h1 := b1 (a3 hp)
      omega
  · intro hge
    rw [robotsOkCount_append] at hge
    rcases Nat.eq_zero_or_pos (robotsOkCount d t2) with h0 | hp
    · exact b4 (a3 (by omega))
    · exact b3 hp

theorem robotsStep_inv (cfg : CrawlerConfig) (w : World) (url : Url) (s : CrawlState)
    (d : String) :
    RobotsInv d s (robotsStep cfg w url s).2.1 (robotsStep cfg w url s).1 := by
  simp only [robotsStep]
  split
  · split
    · exact robotsInv_nil d s
    · split
      · exact robotsInv_zero _ _ _ _ (by simp [robotsOkCount]) rfl
      · rename_i hlook
        split
        · rename_i content heq
          by_cases hdd : url.domainStr = d
          · subst hdd
            have hnone : cacheHas url.domainStr s = false := by
              simp [cacheHas, hlook]
            refine ⟨fun hc => by rw [hnone] at hc; exact absurd hc (by simp), ?_, ?_, ?_⟩
            · simp [robotsOkCount]
            · intro _
              simp [cacheHas, List.lookup]
            · intro hc
              rw [hnone] at hc
              exact absurd hc (by simp)
          · have hbeq : (url.domainStr == d) = false := beq_eq_false_iff_ne.mpr hdd
            have hbeq2 : (d == url.domainStr) = false :=
              beq_eq_false_iff_ne.mpr fun h => hdd h.symm
            refine ⟨fun _ => ?_, ?_, ?_, ?_⟩
            · simp [robotsOkCount, hbeq]
            · simp [robotsOkCount, hbeq]
            · intro hc
              simp [robotsOkCount, hbeq] at hc
            · intro hc
              unfold cacheHas at hc ⊢
              simp only [List.lookup, hbeq2]
              exact hc
        · exact robotsInv_zero _ _ _ _ (by simp [robotsOkCount]) rfl
        · exact robotsInv_zero _ _ _ _ (by simp [robotsOkCount]) rfl
  · exact robotsInv_zero _ _ _ _ (by simp [robotsOkCount]) rfl

theorem foldVisits_inv
    {f : Url → CrawlState → CrawlState × List Event × Except CrawlErr Unit}
    (Inv : CrawlState → List Event → CrawlState → Prop)
    (hnil : ∀ s, Inv s [] s)
    (hcomp : ∀ s t1 s1 t2 s2, Inv s t1 s1 → Inv s1 t2 s2 → Inv s (t1 ++ t2) s2)
    (hf : ∀ u s, Inv s (f u s).2.1 (f u s).1) :
    ∀ us s, Inv s (foldVisits f us s).2 (foldVisits f us s).1 := by
  intro us
  induction us with
  | nil =>
    intro s
    exact hnil s
  | cons u us ih =>
    intro s
    exact hcomp _ _ _ _ _ (hf u s) (ih (f u s).1)

theorem crawl_robots_inv (cfg : CrawlerConfig) (w : World) (d : String) :
    ∀ fuel origin url depth s,
      RobotsInv d s (crawl cfg w fuel origin url depth s).2.1
        (crawl cfg w fuel origin url depth s).1 := by
  intro fuel
  induction fuel with
  | zero =>
    intro origin url depth s
    exact robotsInv_nil d s
  | succ f ih =>
    intro origin url depth s
    simp only [crawl]
    split
    · exact robotsInv_nil d s
    · split
      · rename_i s1 ev1 e heq
        have hin := robotsStep_inv cfg w url s d
        rw [heq] at hin
        exact hin
      · rename_i s1 ev1 heq
        have hin := robotsStep_inv cfg w url s d
        rw [heq] at hin
        exact hin
      · rename_i s1 ev1 heq
        have hin := robotsStep_inv cfg w url s d
        rw [heq] at hin
        split
        · exact robotsInv_comp hin (robotsInv_zero _ _ _ _ (by simp [robotsOkCount]) rfl)
        · rename_i resp hfetch
          split
          · exact robotsInv_comp hin (robotsInv_zero _ _ _ _ (by simp [robotsOkCount]) rfl)
          · split
            · exact robotsInv_comp hin (robotsInv_zero _ _ _ _ (by simp [robotsOkCount]) rfl)
            · rename_i page hbytes
              split
              · exact robotsInv_comp hin (robotsInv_zero _ _ _ _ (by simp [robotsOkCount]) rfl)
              · split
                · exact robotsInv_comp hin
                    (robotsInv_zero _ _ _ _ (by simp [robotsOkCount]) rfl)
                · rename_i content hutf
                  exact robotsInv_comp (robotsInv_comp (robotsInv_comp hin
                    (robotsInv_zero d _ _ _ (by simp [robotsOkCount]) rfl))
                    (robotsInv_zero d _ ⟨s1.robotsCache, url :: s1.visited⟩ _
                      (by simp [robotsOkCount]) rfl))
                    (foldVisits_inv (RobotsInv d) (robotsInv_nil d)
                      (fun _ _ _ _ _ => robotsInv_comp)
                      (fun u t => ih origin u (depth + 1) t)
                      (childLinks w url url.domainStr content)
                      ⟨s1.robotsCache, url :: s1.visited⟩)

/-! ### Claim theorems -/

/-- Claim C1. The claim states that a page is admitted (written) iff its
sniffed content type is in the non-empty `allowed_mimes`, with sniffing
failure admitting.  The code's branch is inverted: with
`allowed_mimes = [text/html]`, the page sniffed `image/png` (not in the
list) IS written to the index, while the page sniffed `text/html` (in the
list) is skipped and nothing is written. -/
theorem c1_mime_filter_inverted :
    wPng.sniff pngBytes = some "image/png" ∧
    "image/png" ∉ cfgMime.allowed_mimes ∧
    Event.write "PNGBODY" urlA "http://a.com/" 0 ∈
      (start cfgMime wPng "http://a.com/").2.1 ∧
    wHtml.sniff pngBytes = some "text/html" ∧
    "text/html" ∈ cfgMime.allowed_mimes ∧
    ((start cfgMime wHtml "http://a.com/").2.1.all fun e => !e.isWrite) = true := by
  decide

/-- Claim C2, counterexample. A rejected query does not produce an
ERROR-status `SearchResponse`: `SearchService::search` maps the reader error
to a transport-level `Status::aborted`. -/
theorem c2_search_error_transport :
    searchHandler (.error "::::") = .transportErr (.aborted "::::") ∧
    isErrorReplyWithMessage (searchHandler (.error "::::")) = false ∧
    indexHandler (.error "crawl failed") = .transportErr (.aborted "crawl failed") :=
  ⟨rfl, rfl, rfl⟩

/-- Claim C2, amended. Parser/searcher rejections of a Search query, and
Index internal errors, surface as transport-level gRPC `aborted` statuses
carrying the error message; only successes produce structured responses
(status OK, message absent). -/
theorem c2_amended_transport_surface (msg : String) (results : List SearchResult)
    (done : String) :
    searchHandler (.error msg) = .transportErr (.aborted msg) ∧
    searchHandler (.ok results) = .reply ⟨.ok, none, results⟩ ∧
    indexHandler (.error msg) = .transportErr (.aborted msg) ∧
    indexHandler (.ok done) = .reply ⟨.ok, none⟩ :=
  ⟨rfl, rfl, rfl, rfl⟩

/-- Claim C3, counterexample. The seed URL parses, yet `start` returns an
error because the root page's own fetch fails — a per-page failure that is
not `InvalidSeed`. -/
theorem c3_root_fetch_error_counterexample :
    (wFetchFail.parseUrl "http://a.com/").isSome = true ∧
    (start cfgPlain wFetchFail "http://a.com/").2.2 = .error (.rootErr .fetchErr) := by
  decide

/-- Claim C3, amended. `start` fails with `InvalidSeed` when the seed cannot
be parsed; failures inside recursively visited child pages are swallowed
(`let _ = join_all`), so when the seed parses and the root visit's own
pipeline (robots step, fetch, Cloudflare check, body read, UTF-8 decode)
succeeds, `start` returns success no matter what happens on child pages —
but a failure in the root visit itself does propagate out of `start`. -/
theorem c3_amended_error_surface (cfg : CrawlerConfig) (w : World) (seed : String) :
    (w.parseUrl seed = none → (start cfg w seed).2.2 = .error .invalidSeed) ∧
    (∀ root s1 ev1 resp page content,
      w.parseUrl seed = some root →
      robotsStep cfg w root ⟨[], []⟩ = (s1, ev1, .go) →
      w.fetch root.full = some resp →
      resp.cfMitigated = false →
      resp.bodyBytes = some page →
      w.utf8Decode page = some content →
      (start cfg w seed).2.2 = .ok ()) := by
  constructor
  · intro hp
    simp [start, hp]
  · intro root s1 ev1 resp page content hp hrs hf hcf hb hu
    have hg : stopGuard cfg root 0 (⟨[], []⟩ : CrawlState) = false := by
      simp [stopGuard]
    simp only [start, hp]
    simp only [crawl, hg, Bool.false_eq_true, if_false, hrs, hf, hcf, hb, hu]
    by_cases hm : (!cfg.allowed_mimes.isEmpty && mimeSkip w cfg page) = true
    · simp [hm, Except.mapError]
    · simp [hm, Except.mapError]

/-- Claim C3, witness for the amended theorem at a concrete world. -/
theorem c3_amended_error_surface_witness :
    (start cfgDef wRobOk "http://a.com/").2.2 = .ok () :=
  (c3_amended_error_surface cfgDef wRobOk "http://a.com/").2 urlA
    ⟨[("a.com", ⟨"Crawl-delay: 2\n", some 2⟩)], []⟩
    [Event.robotsGet "a.com" true, Event.sleep 2]
    ⟨false, some bytesA⟩ bytesA "LINKB" rfl (by decide) rfl rfl rfl rfl

/-- Claim C4, counterexample. With an IPv4-host seed (empty `domain()`), a
link to a DIFFERENT IPv4 host also has empty `domain()`, passes the
same-domain filter, is followed, and its tuple is emitted — so an emitted
URL's host differs from the seed's host, and an empty-domain URL is
followed rather than rejected. -/
theorem c4_ip_host_counterexample :
    wIp.parseUrl "http://127.0.0.1/" = some urlIp1 ∧
    Event.write "IPCHILD" urlIp2 "http://127.0.0.1/" 1 ∈
      (start cfgPlain wIp "http://127.0.0.1/").2.1 ∧
    urlIp2.host ≠ urlIp1.host ∧
    urlIp2.domainStr = "" := by
  decide

/-- Claim C4, amended. Every page tuple emitted to the writer has a URL whose
`domain().unwrap_or_default()` equals the seed's; when the seed's domain is
non-empty (a domain-name host) this forces host equality with the seed, and
empty-domain URLs are rejected.  When the seed's own domain is empty (IP or
opaque host), empty-domain URLs on other hosts are followed. -/
theorem c4_amended_same_domain (cfg : CrawlerConfig) (w : World) (seed : String)
    (root : Url) (hparse : w.parseUrl seed = some root) :
    ∀ t u o d, Event.write t u o d ∈ (start cfg w seed).2.1 →
      u.domainStr = root.domainStr ∧ (root.domainStr ≠ "" → u.host = root.host) := by
  intro t u o d hmem
  simp only [start, hparse] at hmem
  have hdom := crawl_write_domain cfg w (cfg.max_depth + 1 + 1) root.full root 0
    ⟨[], []⟩ t u o d hmem
  refine ⟨hdom, fun hne => ?_⟩
  rw [host_of_domain (by rw [hdom]; exact hne), host_of_domain hne, hdom]

/-- Claim C4, witness for the amended theorem at a concrete crawl. -/
theorem c4_amended_same_domain_witness :
    urlB.domainStr = urlA.domainStr ∧ (urlA.domainStr ≠ "" → urlB.host = urlA.host) :=
  c4_amended_same_domain cfgDef wRobOk "http://a.com/" urlA rfl "PAGEB" urlB
    "http://a.com/" 1 (by decide)

/-- Claim C5. No page tuple emitted by a crawl carries a depth above
`max_depth`, and a visit entered with any depth strictly above `max_depth`
short-circuits with success, with an empty trace (no fetch, no write) and an
unchanged state. -/
theorem c5_depth_cap (cfg : CrawlerConfig) (w : World) :
    (∀ seed t u o d,
      Event.write t u o d ∈ (start cfg w seed).2.1 → d ≤ cfg.max_depth) ∧
    (∀ fuel origin url k s,
      crawl cfg w fuel origin url (cfg.max_depth + 1 + k) s = (s, [], .ok ())) := by
  constructor
  · intro seed t u o d hmem
    rcases hp : w.parseUrl seed with _ | root
    · simp [start, hp] at hmem
    · simp only [start, hp] at hmem
      exact crawl_write_le cfg w (cfg.max_depth + 1 + 1) root.full root 0
        ⟨[], []⟩ t u o d hmem
  · exact crawl_depth_gt cfg w

/-- Claim C5, witness: a depth-1 write respects the default cap, and a visit
at depth `max_depth + 5` is a no-op. -/
theorem c5_depth_cap_witness :
    (1 ≤ cfgDef.max_depth) ∧
    crawl cfgDef wRobOk 3 "http://a.com/" urlA (cfgDef.max_depth + 1 + 4) ⟨[], []⟩ =
      (⟨[], []⟩, [], .ok ()) :=
  ⟨(c5_depth_cap cfgDef wRobOk).1 "http://a.com/" "PAGEB" urlB "http://a.com/" 1
      (by decide),
   (c5_depth_cap cfgDef wRobOk).2 3 "http://a.com/" urlA 4 ⟨[], []⟩⟩

/-- Claim C6, counterexample. With robots enabled and a failing robots.txt
fetch, nothing is cached, so the crawl of a two-page site issues TWO robots
GETs for the same domain — more than one. -/
theorem c6_robots_refetch_counterexample :
    robotsGetCount "a.com" (start cfgDef wRobFail "http://a.com/").2.1 = 2 ∧
    ¬ robotsGetCount "a.com" (start cfgDef wRobFail "http://a.com/").2.1 ≤ 1 := by
  decide

/-- Claim C6, amended. Per crawl and domain, at most one SUCCESSFUL
robots.txt GET (one whose body is obtained and cached) is issued; a failed
fetch caches nothing, so later visits to the same domain may issue further
GETs. -/
theorem c6_amended_robots_once (cfg : CrawlerConfig) (w : World) (seed : String)
    (d : String) :
    robotsOkCount d (start cfg w seed).2.1 ≤ 1 := by
  rcases hp : w.parseUrl seed with _ | root
  · simp [start, hp, robotsOkCount]
  · simp only [start, hp]
    exact (crawl_robots_inv cfg w d (cfg.max_depth + 1 + 1) root.full root 0
      ⟨[], []⟩).2.1

/-- Claim C7, counterexample. When the robots.txt fetch fails, the visit
does NOT sleep at all — the whole crawl trace of `wRobFail` contains no
sleep event although its page GETs proceed (the claim says the default
crawl delay is still slept before the GET). -/
theorem c7_no_sleep_counterexample :
    ((start cfgDef wRobFail "http://a.com/").2.1.filter Event.isSleep) = [] ∧
    Event.get urlA ∈ (start cfgDef wRobFail "http://a.com/").2.1 := by
  decide

/-- Claim C7, amended. A visit whose domain's robots.txt fetch fails is
treated as having no robots policy: the URL is permitted and the page GET is
issued immediately after the failed robots GET, with no sleep in between
(and none before it). -/
theorem c7_amended_no_policy (cfg : CrawlerConfig) (w : World) (fuel : Nat)
    (origin : String) (url : Url) (h : String) (depth : Nat) (s : CrawlState)
    (hguard : stopGuard cfg url depth s = false)
    (hrob : cfg.robots = true)
    (hhost : url.host = some h)
    (hmiss : s.robotsCache.lookup url.domainStr = none)
    (hfail : w.robotsFetch (url.scheme ++ "://" ++ h ++ "/robots.txt") = none) :
    (crawl cfg w (fuel + 1) origin url depth s).2.1.take 2 =
      [Event.robotsGet url.domainStr false, Event.get url] := by
  have hrs : robotsStep cfg w url s = (s, [Event.robotsGet url.domainStr false], .go) := by
    simp [robotsStep, hrob, hhost, hmiss, hfail]
  simp only [crawl, hguard, Bool.false_eq_true, if_false, hrs]
  rcases hf : w.fetch url.full with _ | resp
  · simp [hf]
  · by_cases hcf : resp.cfMitigated = true
    · simp [hf, hcf]
    · rcases hb : resp.bodyBytes with _ | page
      · simp [hf, hcf, hb]
      · by_cases hm : (!cfg.allowed_mimes.isEmpty && mimeSkip w cfg page) = true
        · simp [hf, hcf, hb, hm]
        · rcases hu : w.utf8Decode page with _ | content
          · simp [hf, hcf, hb, hm, hu]
          · simp [hf, hcf, hb, hm, hu]

/-- Claim C7, witness for the amended theorem at a concrete world. -/
theorem c7_amended_no_policy_witness :
    (crawl cfgDef wRobFail (6 + 1) "http://a.com/" urlA 0 ⟨[], []⟩).2.1.take 2 =
      [Event.robotsGet urlA.domainStr false, Event.get urlA] :=
  c7_amended_no_policy cfgDef wRobFail 6 "http://a.com/" urlA "a.com" 0 ⟨[], []⟩
    (by decide) rfl rfl rfl rfl

/-- Claim C8, counterexample. The body `"Crawl-delay stuff: 7\n"` contains no
`Crawl-delay:` substring, so under the claim it would yield no delay and the
configured default (5) would be slept; the code instead matches the bare
substring `Crawl-delay`, parses after the last `':'` and sleeps 7.  With an
empty robots body the code sleeps the constant 1 (`RATE_LIMIT_WAIT_SECONDS`),
never the configured `rate_limit_wait_seconds = 5`. -/
theorem c8_delay_parse_counterexample :
    cfgWait5.rate_limit_wait_seconds = 5 ∧
    containsSeq "Crawl-delay:".data "Crawl-delay stuff: 7".data = false ∧
    (Event.sleep 7 ∈ (start cfgWait5 wRobOdd "http://a.com/").2.1 ∧
      Event.sleep 5 ∉ (start cfgWait5 wRobOdd "http://a.com/").2.1) ∧
    (Event.sleep RATE_LIMIT_WAIT_SECONDS ∈
        (start cfgWait5 wRobEmpty "http://a.com/").2.1 ∧
      Event.sleep 5 ∉ (start cfgWait5 wRobEmpty "http://a.com/").2.1) := by
  decide

/-- Claim C8, amended. A fetched robots.txt body is scanned line by line for
the bare substring `Crawl-delay` (no colon); a line's candidate value is the
text after its LAST `':'`, trimmed and parsed as `u64`; the first line with a
parsable candidate wins.  The visit sleeps that many seconds after the
robots GET, and the entry is cached with the delay PRESENT; when no line
parses, the delay is the constant `RATE_LIMIT_WAIT_SECONDS = 1`, not the
configured `rate_limit_wait_seconds`. -/
theorem c8_amended_delay_parse (cfg : CrawlerConfig) (w : World) (url : Url)
    (s : CrawlState) (h : String) (content : String)
    (hrob : cfg.robots = true)
    (hhost : url.host = some h)
    (hmiss : s.robotsCache.lookup url.domainStr = none)
    (hfetch : w.robotsFetch (url.scheme ++ "://" ++ h ++ "/robots.txt") =
      some (some content)) :
    robotsStep cfg w url s =
      ({ s with robotsCache :=
          (url.domainStr, ⟨content, some (crawlDelayOfRobots content)⟩) ::
            s.robotsCache },
        [Event.robotsGet url.domainStr true,
          Event.sleep (crawlDelayOfRobots content)],
        if w.robotsAllowed content cfg.user_agent url.full then StepGo.go
        else StepGo.stop) ∧
    (delayCandidates content = [] →
      crawlDelayOfRobots content = RATE_LIMIT_WAIT_SECONDS) := by
  constructor
  · simp [robotsStep, hrob, hhost, hmiss, hfetch]
  · intro hc
    simp [crawlDelayOfRobots, hc]

/-- Claim C8, witness for the amended theorem: the `Crawl-delay: 2` body is
parsed to a 2-second delay and cached as present. -/
theorem c8_amended_delay_parse_witness :
    robotsStep cfgDef wRobOk urlA ⟨[], []⟩ =
      (⟨[("a.com", ⟨"Crawl-delay: 2\n", some 2⟩)], []⟩,
        [Event.robotsGet "a.com" true, Event.sleep 2], StepGo.go) ∧
    (delayCandidates "Crawl-delay: 2\n" = [] →
      crawlDelayOfRobots "Crawl-delay: 2\n" = RATE_LIMIT_WAIT_SECONDS) :=
  c8_amended_delay_parse cfgDef wRobOk urlA ⟨[], []⟩ "a.com" "Crawl-delay: 2\n"
    rfl rfl rfl rfl

/-- Claim C9, counterexample. `IndexerService::visit` builds a voyager
crawler configuration with `max_concurrent_requests = 1000` (not 2) and
`disallow_domains = [facebook.com, google.com]`; it has no `max_pages` or
`robots_enabled` setting at all. -/
theorem c9_config_counterexample :
    (indexerVisitConfig 4).max_concurrent_requests = 1000 ∧
    ¬ (indexerVisitConfig 4).max_concurrent_requests = 2 ∧
    (indexerVisitConfig 4).disallowed_domains = ["facebook.com", "google.com"] :=
  ⟨rfl, by decide, rfl⟩

/-- Claim C9, amended. For `Index(origin, k)` the service builds a voyager
crawler with disallowed domains facebook.com and google.com,
`max_depth = k`, `max_concurrent_requests = 1000` (no page cap, no robots
option), always returns a success message, and writes every Ok scraper
output with `origin_url` equal to the request's origin. -/
theorem c9_amended_voyager_config (k : Nat) (origin : String)
    (outputs : List (Except String (Nat × String × String))) :
    indexerVisitConfig k = ⟨["facebook.com", "google.com"], k, 1000⟩ ∧
    indexerVisitResult origin k =
      .ok ("Completed crawl for " ++ origin ++ " at max depth " ++ toString k) ∧
    ∀ pw ∈ indexerVisitWrites origin outputs, pw.origin_url = origin := by
  refine ⟨rfl, rfl, ?_⟩
  intro pw hpw
  simp only [indexerVisitWrites, List.mem_filterMap] at hpw
  obtain ⟨o, _, hmo⟩ := hpw
  cases o with
  | ok v =>
    obtain ⟨depth, url, text⟩ := v
    simp only [Option.some.injEq] at hmo
    rw [← hmo]
  | error e =>
    simp at hmo

/-- Claim C9, witness for the amended theorem at a concrete output stream. -/
theorem c9_amended_voyager_config_witness :
    (⟨"t1", "u1", "http://o/", 0⟩ : PageWrite).origin_url = "http://o/" :=
  (c9_amended_voyager_config 4 "http://o/" [.ok (0, "u1", "t1"), .error "boom"]).2.2
    ⟨"t1", "u1", "http://o/", 0⟩ (by decide)

/-- Claim C10. When the MIME-filter branch fires (`allowed_mimes` non-empty
and the sniff-based test true), the visit inserts the URL into the visited
set — consuming page budget — and returns success with no write event and no
child visit: the whole visit result is exactly the robots-phase state with
the URL added, the robots-phase events plus the page GET, and `Ok`. -/
theorem c10_mime_skip_frame (cfg : CrawlerConfig) (w : World) (fuel : Nat)
    (origin : String) (url : Url) (depth : Nat) (s s1 : CrawlState)
    (ev1 : List Event) (resp : HttpResponse) (page : List Nat)
    (hguard : stopGuard cfg url depth s = false)
    (hrs : robotsStep cfg w url s = (s1, ev1, .go))
    (hfetch : w.fetch url.full = some resp)
    (hcf : resp.cfMitigated = false)
    (hbytes : resp.bodyBytes = some page)
    (hmime : (!cfg.allowed_mimes.isEmpty && mimeSkip w cfg page) = true) :
    crawl cfg w (fuel + 1) origin url depth s =
      ({ s1 with visited := url :: s1.visited }, ev1 ++ [Event.get url], .ok ()) := by
  simp [crawl, hguard, hrs, hfetch, hcf, hbytes, hmime]

/-- Claim C10, witness: the `text/html` page under `allowed_mimes =
[text/html]` is skipped, its URL consumed into the visited set, with no
write and no recursion. -/
theorem c10_mime_skip_frame_witness :
    crawl cfgMime wHtml (6 + 1) "http://a.com/" urlA 0 ⟨[], []⟩ =
      (⟨[], [urlA]⟩, [Event.sleep 1] ++ [Event.get urlA], .ok ()) :=
  c10_mime_skip_frame cfgMime wHtml 6 "http://a.com/" urlA 0 ⟨[], []⟩ ⟨[], []⟩
    [Event.sleep 1] ⟨false, some pngBytes⟩ pngBytes (by decide) rfl rfl rfl rfl
    (by decide)
